import Mathlib

/-!
Verification development for the realtime synchronization core of the
`node-gardena-smart-system` library: the device entity attribute-merge logic
(`GardenaDevice.processAttributes`), the snapshot-driven registry build
(`GardenaLocation.updateDevicesList`), the inbound websocket message path
(`GardenaLocation.onWSMessage`), the reconnection lifecycle (`resetWS`) and
the mower's derived `error` getter.

The TypeScript classes are shallowly embedded: entity state is a string-keyed
partial map (a JavaScript object), fallible methods return an explicit error
component, the async lifecycle methods are modelled as traces of the actions
they issue, and attribute values are a small JavaScript-value type `GVal`
(definitions are also stated for an arbitrary value type `α` where the source
is generic in the payload).
-/

namespace Gardena

/-- JavaScript runtime values as they appear in attribute payloads: strings,
numbers, booleans and null.  Only as much structure as the embedded code
inspects (string equality and truthiness). -/
inductive GVal where
  | str : String → GVal
  | num : Int → GVal
  | boolean : Bool → GVal
  | null : GVal
  deriving DecidableEq

/-- JavaScript truthiness for a `GVal`: the empty string, zero, `false` and
`null` are falsy; everything else is truthy. -/
def jsTruthy : GVal → Bool
  | .str s => s != ""
  | .num n => n != 0
  | .boolean b => b
  | .null => false

/-- Left-biased alternative on `Option`: the first argument wins when present.
Used to express a "later write wins" reading of a write sequence. -/
def oalt {α : Type} : Option α → Option α → Option α
  | some v, _ => some v
  | none, b => b

/-- One entry of a parsed attribute delta, after the websocket/snapshot layer
has repacked it: a value plus an optional timestamp
(`GardenaRawDeviceAttributeJson` in `GardenaDevice.ts`, fields `value`/`ts`). -/
structure GardenaRawDeviceAttributeJson (α : Type) where
  value : α
  ts : Option α
  deriving DecidableEq

/-- An in-memory device entity (`GardenaDevice` / `GardenaMower`).
`id` is the primary (device) id, `secondaryIds` the additional ids the entity
can be addressed by (for a mower, its service id).  `declared` is the list of
instance property names the class declares (the TypeScript class fields), and
`fields` is the JavaScript object's property store: a string-keyed partial
map holding the current attribute values and timestamps. -/
structure GardenaDevice (α : Type) where
  id : String
  secondaryIds : List String
  declared : List String
  fields : String → Option α

/-- Modelled from the spec: the accessor `ids` used by the message matcher at
`GardenaLocation.ts` line 173 (`x.ids.includes(json.id)`) is not declared in
the `GardenaDevice` class under `src/`; per the spec's data model a device has
"one primary id; optionally a set of secondary ids (a device may be addressed
by more than one id in inbound messages, e.g. a sub-service id)". -/
def GardenaDevice.ids {α : Type} (d : GardenaDevice α) : List String :=
  d.id :: d.secondaryIds

/-- The instance property names declared by the `GardenaMower` class together
with its base class `GardenaDevice` (`GardenaDevice.ts` lines 29-40 and
`GardenaMower.ts` lines 98-105).  Note that `rfLinkStateTs` and
`operatingHoursTs` are not declared. -/
def mowerDeclaredFields : List String :=
  ["connection", "id", "serial", "modelType", "name",
   "batteryLevel", "batteryLevelTs", "batteryState", "batteryStateTs",
   "rfLinkLevel", "rfLinkLevelTs", "rfLinkState",
   "serviceId", "state", "stateTs", "activity", "activityTs",
   "lastErrorCode", "lastErrorCodeTs", "operatingHours"]

/-- Assign one property of a JavaScript object: `obj[k] = v`. -/
def setField {α : Type} (f : String → Option α) (k : String) (v : α) :
    String → Option α :=
  fun q => if q = k then some v else f q

/-- The attribute merge, `GardenaDevice.processAttributes`
(`GardenaDevice.ts` lines 49-68).  For each field of the delta, in delta
order: if the entity declares the field (`field in this`), overwrite its
value, overwrite the paired `fieldTs` property when the delta supplies a
timestamp, and append the field name to the updated list.  Returns the
mutated entity together with the list of updated field names.  This version
keeps the property set frozen at `declared`; `processAttributesDynamic`
below also models the properties the `Ts` writes create at runtime. -/
def processAttributes {α : Type} :
    GardenaDevice α → List (String × GardenaRawDeviceAttributeJson α) →
    GardenaDevice α × List String
  | d, [] => (d, [])
  | d, p :: rest =>
    if p.1 ∈ d.declared then
      let d1 : GardenaDevice α := { d with fields := setField d.fields p.1 p.2.value }
      let d2 : GardenaDevice α :=
        match p.2.ts with
        | some t => { d1 with fields := setField d1.fields (p.1 ++ "Ts") t }
        | none => d1
      let r := processAttributes d2 rest
      (r.1, p.1 :: r.2)
    else processAttributes d rest

/-- Property creation on a JavaScript object: the property-name list gains
`k` when no property of that name exists yet; assigning to an existing
property leaves the property set unchanged. -/
def addProp (l : List String) (k : String) : List String :=
  if k ∈ l then l else l ++ [k]

/-- The attribute merge of `GardenaDevice.processAttributes`
(`GardenaDevice.ts` lines 49-68) with the `field in this` test modelled
against the live property set rather than a frozen one: here `declared`
tracks the entity's existing instance properties, and the timestamp write
`this[field + "Ts"] = ts` creates the `Ts` property when the entity does not
already have one (the classes declare neither `operatingHoursTs` nor
`rfLinkStateTs`), making it visible to later `in` tests within the same call
and in later calls.  `processAttributes` above is the same loop with the
property set frozen; the two coincide on deltas none of whose field names is
another delta field's `Ts` key, but only this version shows the growth of
the property set across repeated merges. -/
def processAttributesDynamic {α : Type} :
    GardenaDevice α → List (String × GardenaRawDeviceAttributeJson α) →
    GardenaDevice α × List String
  | d, [] => (d, [])
  | d, p :: rest =>
    if p.1 ∈ d.declared then
      let d1 : GardenaDevice α := { d with fields := setField d.fields p.1 p.2.value }
      let d2 : GardenaDevice α :=
        match p.2.ts with
        | some t =>
          { d1 with
            fields := setField d1.fields (p.1 ++ "Ts") t
            declared := addProp d1.declared (p.1 ++ "Ts") }
        | none => d1
      let r := processAttributesDynamic d2 rest
      (r.1, p.1 :: r.2)
    else processAttributesDynamic d rest

/-- Errors raised by the embedded code.  `apiError` is a `GardenaApiError`
raised without a cause, `apiErrorCaused e` one raised with `{ cause: e }`,
and `typeError` is a JavaScript `TypeError` from a property access on
`undefined`. -/
inductive GError where
  | typeError : GError
  | apiError : GError
  | apiErrorCaused : GError → GError
  deriving DecidableEq

/-- One raw attribute entry of a snapshot characteristic or a websocket
message body: `{ value, timestamp? }` (the `timestamp` is converted to the
entity-side `ts` by the caller; the `Moment(...)` wrapping is modelled as the
identity). -/
structure RawAttrValueJson (α : Type) where
  value : α
  timestamp : Option α
  deriving DecidableEq

/-- One record of a snapshot's `included` array, as far as
`updateDevicesList` inspects it.  `hasServices` models the truthiness of the
chain `x.relationships && x.relationships.services &&
x.relationships.services.data`; `relDeviceId` models the value of
`x.relationships.device.data.id` when that chain is present (`none` when
`relationships` or `relationships.device` is absent). -/
structure IncludedRecord (α : Type) where
  id : String
  type : String
  hasServices : Bool
  relDeviceId : Option String
  attributes : Option (List (String × RawAttrValueJson α))

/-- A location snapshot payload (`GardenaRawDevicesJson`), as far as
`updateDevicesList` inspects it: the linked device ids
(`res.data.relationships.devices.data`, already projected to their `id`
fields) and the `included` array; each is `none` when the payload lacks it. -/
structure Snapshot (α : Type) where
  deviceRefIds : Option (List String)
  included : Option (List (IncludedRecord α))

/-- The supported device types constant of `updateDevicesList`
(`GardenaLocation.ts` line 51). -/
def supportedDeviceTypes : List String := ["MOWER"]

/-- The `res.included.filter(...)` of `updateDevicesList`
(`GardenaLocation.ts` lines 68-73): characteristics linked to a device id
either by carrying the id directly while declaring services, or by a
relationship back to the device id. -/
def rawCharacteristicsFor {α : Type} (included : List (IncludedRecord α))
    (deviceId : String) : List (IncludedRecord α) :=
  included.filter fun x =>
    (x.id == deviceId && x.hasServices) ||
    (match x.relDeviceId with
     | some r => r == deviceId
     | none => false)

/-- Assignment `attributes[attrName] = ...` into the string-keyed collection
built by `updateDevicesList`/`onWSMessage`: replace in place when the key
exists, append otherwise (JavaScript property-set semantics, preserving
insertion order). -/
def upsert {β : Type} : List (String × β) → String → β → List (String × β)
  | [], k, v => [(k, v)]
  | (q, w) :: rest, k, v =>
    if q = k then (k, v) :: rest else (q, w) :: upsert rest k v

/-- The attribute collection loop of `updateDevicesList` (`GardenaLocation.ts`
lines 88-104): walk every characteristic, and for each attribute entry store
`{ value }`, adding `ts` when a `timestamp` is provided.  Later records
overwrite earlier ones at the same name. -/
def collectAttributes {α : Type} (chars : List (IncludedRecord α)) :
    List (String × GardenaRawDeviceAttributeJson α) :=
  chars.foldl
    (fun acc c =>
      match c.attributes with
      | none => acc
      | some entries =>
        entries.foldl (fun acc e => upsert acc e.1 ⟨e.2.value, e.2.timestamp⟩) acc)
    []

/-- The `GardenaMower` constructor (`GardenaMower.ts` lines 107-112): a fresh
entity with the mower class's declared fields, the device id as primary id,
the service id as secondary id, no properties set yet, to which the collected
snapshot attributes are applied via `processAttributes`. -/
def mkGardenaMower {α : Type} (deviceId serviceId : String)
    (attrs : List (String × GardenaRawDeviceAttributeJson α)) : GardenaDevice α :=
  (processAttributes
    { id := deviceId, secondaryIds := [serviceId],
      declared := mowerDeclaredFields, fields := fun _ => none }
    attrs).1

/-- The per-device body of the `updateDevicesList` loop (`GardenaLocation.ts`
lines 66-119).  `characteristicWithType` is `rawCharacteristics.find(...)`;
when no characteristic of a supported type exists it is `undefined` and the
subsequent `characteristicWithType.type` property access raises a `TypeError`
(modelled as `.error .typeError`).  `ok none` is the `default: continue`
branch of the `switch` that skips a device. -/
def buildDevice {α : Type} (included : List (IncludedRecord α))
    (deviceId : String) : Except GError (Option (GardenaDevice α)) :=
  let chars := rawCharacteristicsFor included deviceId
  match chars.find? (fun x => supportedDeviceTypes.contains x.type) with
  | none => .error .typeError
  | some cwt =>
    let type := cwt.type
    let serviceId := cwt.id
    let attrs := if type ≠ "" then collectAttributes chars else []
    match type with
    | "MOWER" => .ok (some (mkGardenaMower deviceId serviceId attrs))
    | _ => .ok none

/-- The device loop of `updateDevicesList` over the linked device ids,
collecting the parsed devices in order and propagating any raised error. -/
def buildDevices {α : Type} (included : List (IncludedRecord α)) :
    List String → Except GError (List (GardenaDevice α))
  | [] => .ok []
  | deviceId :: rest =>
    match buildDevice included deviceId with
    | .error e => .error e
    | .ok none => buildDevices included rest
    | .ok (some d) =>
      match buildDevices included rest with
      | .error e => .error e
      | .ok ds => .ok (d :: ds)

/-- The mutable state of a `GardenaLocation` as far as the embedded methods
touch it: the device list, the transport handle (`ws`), the two heartbeat
timers, and the stay-alive flag (`keepWsAlive`). -/
structure GardenaLocationState (α : Type) where
  devices : List (GardenaDevice α)
  ws : Bool
  wsPingInterval : Bool
  wsPongTimeout : Bool
  keepWsAlive : Bool

/-- The snapshot refresh `updateDevicesList` (`GardenaLocation.ts` lines
50-128).  The REST response is an input (`.error` = the request threw).  The
whole body runs in a `try` whose `catch` wraps any raised error in a
`GardenaApiError`; the local `devices` list is assigned to `this.devices`
only after the loop completes, so on any failure the location state is
returned untouched alongside the raised error. -/
def updateDevicesList {α : Type} (loc : GardenaLocationState α)
    (res : Except GError (Snapshot α)) :
    Option GError × GardenaLocationState α :=
  match res with
  | .error e => (some (.apiErrorCaused e), loc)
  | .ok snap =>
    match snap.deviceRefIds, snap.included with
    | some refs, some included =>
      match buildDevices included refs with
      | .error e => (some (.apiErrorCaused e), loc)
      | .ok devs => (none, { loc with devices := devs })
    | _, _ => (some (.apiErrorCaused .apiError), loc)

/-- An inbound websocket message, as far as `onWSMessage` inspects it.
`relDeviceId` models the value of `json.relationships.device.data.id` when
the chain `json.relationships && json.relationships.device` is present
(`none` otherwise); `attributes` is `none` when `json.attributes` is absent
(falsy), and `some entries` for an attributes object (possibly empty). -/
structure WSMessage (α : Type) where
  id : Option String
  relDeviceId : Option String
  attributes : Option (List (String × RawAttrValueJson α))

/-- Events emitted on device entities by the embedded handlers. -/
inductive WSEvent where
  | startWSUpdates : WSEvent
  | stopWSUpdates : WSEvent
  | wsUpdate : String → List String → WSEvent
  deriving DecidableEq

/-- First matching rule of `onWSMessage` (`GardenaLocation.ts` lines
172-174): `x.ids.includes(json.id)`; an absent `json.id` matches nothing. -/
def matchesByIds {α : Type} (msg : WSMessage α) (x : GardenaDevice α) : Bool :=
  match msg.id with
  | some i => x.ids.contains i
  | none => false

/-- The entity matching of `onWSMessage` (`GardenaLocation.ts` lines
170-180): first the device whose primary-or-secondary ids contain the
message's own id; if none, and the relationship chain yields a truthy id
(a non-empty string), the device whose primary id equals it. -/
def matchedDevice {α : Type} (devices : List (GardenaDevice α))
    (msg : WSMessage α) : Option (GardenaDevice α) :=
  match devices.find? (matchesByIds msg) with
  | some d => some d
  | none =>
    match msg.relDeviceId with
    | some r => if r ≠ "" then devices.find? (fun x => x.id == r) else none
    | none => none

/-- Replace the first device satisfying `p` (the JavaScript in-place mutation
of the object `find` returned, seen through the list that references it). -/
def setFirst {α : Type} (p : GardenaDevice α → Bool) (d : GardenaDevice α) :
    List (GardenaDevice α) → List (GardenaDevice α)
  | [] => []
  | x :: rest => if p x then d :: rest else x :: setFirst p d rest

/-- The matched-device branch of `onWSMessage` (`GardenaLocation.ts` lines
182-203): when the message carries a (truthy) `attributes` object, repack its
entries as `{ value, ts? }`, merge them into the matched entity with
`processAttributes`, and emit `wsUpdate` with the returned updated-field
list; with no attributes, nothing happens. -/
def dispatchDelta {α : Type} (st : GardenaLocationState α) (msg : WSMessage α)
    (p : GardenaDevice α → Bool) (dev : GardenaDevice α) :
    Option GError × GardenaLocationState α × List WSEvent :=
  match msg.attributes with
  | none => (none, st, [])
  | some entries =>
    let attrs := entries.foldl (fun acc e => upsert acc e.1 ⟨e.2.value, e.2.timestamp⟩) []
    let r := processAttributes dev attrs
    (none, { st with devices := setFirst p r.1 st.devices }, [.wsUpdate dev.id r.2])

/-- The inbound message handler `onWSMessage` (`GardenaLocation.ts` lines
161-204).  The already-parsed message is `some json`; `none` models a payload
`JSON.parse` rejects, on which the handler throws a `GardenaApiError` before
touching anything.  Returns the raised error (if any), the location state and
the emitted events. -/
def onWSMessage {α : Type} (st : GardenaLocationState α)
    (data : Option (WSMessage α)) :
    Option GError × GardenaLocationState α × List WSEvent :=
  match data with
  | none => (some .apiError, st, [])
  | some json =>
    match st.devices.find? (matchesByIds json) with
    | some dev => dispatchDelta st json (matchesByIds json) dev
    | none =>
      match json.relDeviceId with
      | some r =>
        if r ≠ "" then
          match st.devices.find? (fun x => x.id == r) with
          | some dev => dispatchDelta st json (fun x => x.id == r) dev
          | none => (none, st, [])
        else (none, st, [])
      | none => (none, st, [])

/-- The claim's matching rule, written from its own words: first
primary-or-secondary id equality against the message's own id, then — if
that found nothing — the message's device-relationship id (whenever it is
present) against each entity's primary id. -/
def wsMatchClaim {α : Type} (devices : List (GardenaDevice α))
    (msg : WSMessage α) : Option (GardenaDevice α) :=
  match devices.find? (matchesByIds msg) with
  | some d => some d
  | none =>
    match msg.relDeviceId with
    | some r => devices.find? (fun x => x.id == r)
    | none => none

/-- The amended matching rule: as `wsMatchClaim`, except that the
device-relationship fallback applies only when the relationship id is a
non-empty (JavaScript-truthy) string; an empty-string relationship id is
treated as absent. -/
def wsMatchClaimAmended {α : Type} (devices : List (GardenaDevice α))
    (msg : WSMessage α) : Option (GardenaDevice α) :=
  match devices.find? (matchesByIds msg) with
  | some d => some d
  | none =>
    match msg.relDeviceId with
    | some r => if r ≠ "" then devices.find? (fun x => x.id == r) else none
    | none => none

/-- Actions issued by the session lifecycle methods, in program order.  The
collaborator calls (`updateDevicesList`, the websocket-URL negotiation, the
socket construction) are modelled as single actions and assumed to return;
the claims settled against this model are about the control flow that issues
them. -/
inductive SessionAction where
  | terminateWS : SessionAction
  | closeWSGraceful : SessionAction
  | clearTimers : SessionAction
  | emitStopWSUpdates : SessionAction
  | wait : Nat → SessionAction
  | refreshDevices : SessionAction
  | negotiateWebsocketUrl : SessionAction
  | openTransport : SessionAction
  deriving DecidableEq

/-- The session lifecycle state threaded through the trace model: whether a
transport handle exists, whether the device list has been populated (a
JavaScript-truthy `this.devices`), and the stay-alive flag. -/
structure SessState where
  ws : Bool
  devicesLoaded : Bool
  keepWsAlive : Bool
  deriving DecidableEq

/-- The `closeWS` method (`GardenaLocation.ts` lines 229-250): when a
transport handle exists, terminate it (or close gracefully), clear both
heartbeat timers, detach listeners and discard the handle; otherwise do
nothing. -/
def closeWSFn (st : SessState) (immediatly : Bool) : SessState × List SessionAction :=
  if st.ws then
    ({ st with ws := false },
     [if immediatly then .terminateWS else .closeWSGraceful, .clearTimers])
  else (st, [])

/-- The `activateRealtimeUpdates` method (`GardenaLocation.ts` lines
252-310) as a trace: set stay-alive, terminate an existing transport, refresh
the device list when it was never populated, negotiate a websocket URL and
open the transport. -/
def activateRealtimeUpdatesFn (st : SessState) : SessState × List SessionAction :=
  let st1 := { st with keepWsAlive := true }
  let c := if st1.ws then closeWSFn st1 true else (st1, [])
  let r :=
    if c.1.devicesLoaded then (c.1, ([] : List SessionAction))
    else ({ c.1 with devicesLoaded := true }, [.refreshDevices])
  ({ r.1 with ws := true }, c.2 ++ r.2 ++ [.negotiateWebsocketUrl, .openTransport])

/-- The reconnection path `resetWS` (`GardenaLocation.ts` lines 210-227):
terminate the transport, notify every device that realtime delivery stopped,
wait the fixed 10-second cool-down, and — when the stay-alive flag still
holds at wake — refresh the device list and start again.  `stopDuringWait`
models a concurrent `deactivateRealtimeUpdates` clearing the flag during the
cool-down suspension. -/
def resetWSFn (st : SessState) (stopDuringWait : Bool) : SessState × List SessionAction :=
  let c := closeWSFn st true
  let pre := c.2 ++ [.emitStopWSUpdates, .wait 10000]
  let stAwake := if stopDuringWait then { c.1 with keepWsAlive := false } else c.1
  if stAwake.keepWsAlive then
    let r := ({ stAwake with devicesLoaded := true }, [.refreshDevices])
    let a := activateRealtimeUpdatesFn r.1
    (a.1, pre ++ r.2 ++ a.2)
  else (stAwake, pre)

/-- The `close` handler `onWSClose` (`GardenaLocation.ts` lines 206-208):
invokes `resetWS`. -/
def onWSCloseFn (st : SessState) (stopDuringWait : Bool) : SessState × List SessionAction :=
  resetWSFn st stopDuringWait

/-- The `error` handler `onWSError` (`GardenaLocation.ts` lines 157-159):
invokes `resetWS`. -/
def onWSErrorFn (st : SessState) (stopDuringWait : Bool) : SessState × List SessionAction :=
  resetWSFn st stopDuringWait

/-- JavaScript loose equality of a property value against a string enum
constant, as in `this.state == GardenaMowerState.Error`: true exactly when
the property holds that string (an absent property compares false). -/
def jsEqStr (v : Option GVal) (s : String) : Bool :=
  match v with
  | some (.str t) => t == s
  | _ => false

/-- The `error` getter of `GardenaMower` (`GardenaMower.ts` lines 156-163),
embedded with explicit recursion depth: the condition
`(this.state == ERROR || this.state == WARNING) && this.error` re-enters the
getter itself, as does the subsequent `return this.error`.  A result of
`none` means the evaluation did not finish within `fuel` nested calls (at
every depth, i.e. the getter diverges); `some v` is the value returned. -/
def mowerErrorGetter (d : GardenaDevice GVal) : Nat → Option GVal
  | 0 => none
  | fuel + 1 =>
    if jsEqStr (d.fields "state") "ERROR" || jsEqStr (d.fields "state") "WARNING" then
      match mowerErrorGetter d fuel with
      | none => none
      | some v =>
        if jsTruthy v then
          match mowerErrorGetter d fuel with
          | none => none
          | some w => some w
        else some .null
    else some .null

/-- Analysis helper: the write one delta entry performs at property key `k`
(the value write at the field name, and the timestamp write at the paired
`Ts` key when a timestamp is supplied), `none` when the entry does not write
`k`. -/
def entryWrite {α : Type} (declared : List String)
    (p : String × GardenaRawDeviceAttributeJson α) (k : String) : Option α :=
  if p.1 ∈ declared then
    oalt (if p.2.ts.isSome = true ∧ k = p.1 ++ "Ts" then p.2.ts else none)
      (if k = p.1 then some p.2.value else none)
  else none

/-- Analysis helper: the last write a delta performs at property key `k`
(later entries take precedence over earlier ones). -/
def lastWrite {α : Type} (declared : List String) :
    List (String × GardenaRawDeviceAttributeJson α) → String → Option α
  | [], _ => none
  | p :: rest, k => oalt (lastWrite declared rest k) (entryWrite declared p k)

/-- Analysis helper: every property key a delta writes (declared field names
present in the delta and, for entries supplying a timestamp, their paired
`Ts` keys). -/
def writeTargets {α : Type} (declared : List String) :
    List (String × GardenaRawDeviceAttributeJson α) → List String
  | [] => []
  | p :: rest =>
    (if p.1 ∈ declared then
       p.1 :: (match p.2.ts with | some _ => [p.1 ++ "Ts"] | none => [])
     else []) ++ writeTargets declared rest

/-- A sample entity whose primary id is the empty string. -/
def devBlank : GardenaDevice GVal :=
  { id := "", secondaryIds := [], declared := mowerDeclaredFields,
    fields := fun _ => none }

/-- A sample message whose device-relationship id is the empty string and
whose own id is absent. -/
def msgEmptyRel : WSMessage GVal :=
  { id := none, relDeviceId := some "",
    attributes := some [("state", ⟨.str "OK", none⟩)] }

/-- A sample location state holding only `devBlank`. -/
def stBlank : GardenaLocationState GVal :=
  { devices := [devBlank], ws := true, wsPingInterval := true,
    wsPongTimeout := false, keepWsAlive := true }

/-- A sample mower entity with primary id `dev1` and service id `svc1`. -/
def devMower1 : GardenaDevice GVal :=
  { id := "dev1", secondaryIds := ["svc1"], declared := mowerDeclaredFields,
    fields := fun _ => none }

/-- A sample location state holding only `devMower1`. -/
def stMower1 : GardenaLocationState GVal :=
  { devices := [devMower1], ws := true, wsPingInterval := true,
    wsPongTimeout := false, keepWsAlive := true }

/-- A sample message addressed to `dev1` whose only attribute is a field the
entity does not declare. -/
def msgBogus : WSMessage GVal :=
  { id := some "dev1", relDeviceId := none,
    attributes := some [("bogusField", ⟨.str "x", none⟩)] }

/-- A sample snapshot characteristic of the supported `MOWER` type, linked to
device id `mower1` through its device relationship. -/
def mowerChar : IncludedRecord GVal :=
  { id := "svc-m1", type := "MOWER", hasServices := false,
    relDeviceId := some "mower1",
    attributes := some [("state", ⟨.str "OK", none⟩)] }

/-- A sample snapshot characteristic of an unsupported type, linked to device
id `sensor1`. -/
def sensorChar : IncludedRecord GVal :=
  { id := "svc-s1", type := "SENSOR", hasServices := false,
    relDeviceId := some "sensor1", attributes := none }

/-- A sample snapshot linking one mower and one device with no supported
characteristic. -/
def snapMixed : Snapshot GVal :=
  { deviceRefIds := some ["mower1", "sensor1"],
    included := some [mowerChar, sensorChar] }

/-- A sample location state with an empty device list. -/
def locEmpty : GardenaLocationState GVal :=
  { devices := [], ws := false, wsPingInterval := false,
    wsPongTimeout := false, keepWsAlive := false }

/-- A sample mower entity whose run state is `WARNING` and whose last error
code is set. -/
def mowerWarn : GardenaDevice GVal :=
  { id := "dev1", secondaryIds := ["svc1"], declared := mowerDeclaredFields,
    fields := fun k =>
      if k = "state" then some (.str "WARNING")
      else if k = "lastErrorCode" then some (.str "TRAPPED") else none }

/-- A sample mower entity whose run state is `OK`. -/
def mowerOk : GardenaDevice GVal :=
  { id := "dev1", secondaryIds := ["svc1"], declared := mowerDeclaredFields,
    fields := fun k => if k = "state" then some (.str "OK") else none }

/-- A sample delta with one declared field (timestamped) and one unknown
field. -/
def wDelta : List (String × GardenaRawDeviceAttributeJson GVal) :=
  [("batteryLevel", ⟨.num 80, some (.str "t0")⟩),
   ("bogusField", ⟨.str "x", none⟩)]

/-- A sample delta naming a field (`operatingHoursTs`, not a class field)
that is the `Ts` key of another delta field that carries a timestamp, in
that order: the first application's timestamp write creates the
`operatingHoursTs` property, which a second application's `field in this`
test then sees. -/
def wDeltaTs : List (String × GardenaRawDeviceAttributeJson GVal) :=
  [("operatingHoursTs", ⟨.num 7, none⟩),
   ("operatingHours", ⟨.num 5, some (.str "t1")⟩)]

/-! Helper lemmas. -/

theorem oalt_assoc {α : Type} (a b c : Option α) :
    oalt a (oalt b c) = oalt (oalt a b) c := by
  cases a <;> cases b <;> rfl

theorem oalt_none_left {α : Type} (b : Option α) : oalt none b = b := rfl

theorem oalt_absorb {α : Type} (a b : Option α) :
    oalt a (oalt a b) = oalt a b := by
  cases a <;> rfl

theorem append_Ts_ne_self (s : String) : ¬(s = s ++ "Ts") := by
  intro h
  have hl := congrArg String.length h
  rw [String.length_append] at hl
  have h2 : "Ts".length = 2 := rfl
  rw [h2] at hl
  omega

theorem append_Ts_cancel {s t : String} (h : s ++ "Ts" = t ++ "Ts") : s = t := by
  have hd : s.data ++ "Ts".data = t.data ++ "Ts".data := by
    have h1 := congrArg String.data h
    simpa [String.data_append] using h1
  have hlen : s.data.length = t.data.length := by
    have hl := congrArg List.length hd
    simp only [List.length_append] at hl
    omega
  exact String.ext (List.append_inj hd hlen).1

theorem deviceEq {α : Type} {a b : GardenaDevice α}
    (h1 : a.id = b.id) (h2 : a.secondaryIds = b.secondaryIds)
    (h3 : a.declared = b.declared) (h4 : ∀ k, a.fields k = b.fields k) :
    a = b := by
  obtain ⟨i, s, dec, f⟩ := a
  obtain ⟨j, u, dec2, g⟩ := b
  simp only at h1 h2 h3
  subst h1; subst h2; subst h3
  have : f = g := funext h4
  subst this
  rfl

theorem processAttributes_invariants {α : Type}
    (attrs : List (String × GardenaRawDeviceAttributeJson α)) :
    ∀ d : GardenaDevice α,
      (processAttributes d attrs).1.id = d.id ∧
      (processAttributes d attrs).1.secondaryIds = d.secondaryIds ∧
      (processAttributes d attrs).1.declared = d.declared := by
  induction attrs with
  | nil => intro d; exact ⟨rfl, rfl, rfl⟩
  | cons p rest ih =>
    intro d
    by_cases h : p.1 ∈ d.declared
    · cases hts : p.2.ts <;> simp only [processAttributes, h, if_pos, hts] <;> exact ih _
    · simp only [processAttributes, h, if_neg, not_false_iff, ite_false]
      exact ih d

theorem processAttributes_snd {α : Type}
    (attrs : List (String × GardenaRawDeviceAttributeJson α)) :
    ∀ d : GardenaDevice α,
      (processAttributes d attrs).2 =
        (attrs.filter (fun p => decide (p.1 ∈ d.declared))).map Prod.fst := by
  induction attrs with
  | nil => intro d; rfl
  | cons p rest ih =>
    intro d
    by_cases h : p.1 ∈ d.declared
    · cases hts : p.2.ts with
      | none =>
        simp only [processAttributes, h, if_pos, hts]
        rw [List.filter_cons_of_pos (by simpa using h), List.map_cons]
        exact congrArg (p.1 :: ·) (ih _)
      | some t =>
        simp only [processAttributes, h, if_pos, hts]
        rw [List.filter_cons_of_pos (by simpa using h), List.map_cons]
        exact congrArg (p.1 :: ·) (ih _)
    · simp only [processAttributes, h, if_neg, not_false_iff, ite_false]
      rw [List.filter_cons_of_neg (by simpa using h)]
      exact ih d

theorem oalt_none_right {α : Type} (a : Option α) : oalt a none = a := by
  cases a <;> rfl

theorem processAttributes_fields {α : Type}
    (attrs : List (String × GardenaRawDeviceAttributeJson α)) :
    ∀ (d : GardenaDevice α) (k : String),
      (processAttributes d attrs).1.fields k =
        oalt (lastWrite d.declared attrs k) (d.fields k) := by
  induction attrs with
  | nil => intro d k; rfl
  | cons p rest ih =>
    intro d k
    by_cases h : p.1 ∈ d.declared
    · cases hts : p.2.ts with
      | some t =>
        simp only [processAttributes, h, if_pos, hts]
        rw [ih]
        dsimp only
        have hE : setField (setField d.fields p.1 p.2.value) (p.1 ++ "Ts") t k =
            oalt (entryWrite d.declared p k) (d.fields k) := by
          have hne := append_Ts_ne_self p.1
          by_cases h1 : k = p.1 ++ "Ts"
          · simp [setField, entryWrite, h, hts, h1, oalt]
          · by_cases h2 : k = p.1
            · simp [setField, entryWrite, h, hts, h1, h2, hne, oalt]
            · simp [setField, entryWrite, h, hts, h1, h2, oalt]
        rw [hE, oalt_assoc]
        rfl
      | none =>
        simp only [processAttributes, h, if_pos, hts]
        rw [ih]
        dsimp only
        have hE : setField d.fields p.1 p.2.value k =
            oalt (entryWrite d.declared p k) (d.fields k) := by
          by_cases h2 : k = p.1
          · simp [setField, entryWrite, h, hts, h2, oalt]
          · simp [setField, entryWrite, h, hts, h2, oalt]
        rw [hE, oalt_assoc]
        rfl
    · simp only [processAttributes, h, if_neg, not_false_iff, ite_false]
      rw [ih]
      have hE : entryWrite d.declared p k = none := by
        simp [entryWrite, h]
      show _ = oalt (oalt (lastWrite d.declared rest k) (entryWrite d.declared p k)) _
      rw [hE, oalt_none_right]

theorem lastWrite_eq_none {α : Type} (declared : List String) (k : String) :
    ∀ attrs : List (String × GardenaRawDeviceAttributeJson α),
      (∀ g ∈ attrs.map Prod.fst, ¬(g = k) ∧ ¬(g ++ "Ts" = k)) →
      lastWrite declared attrs k = none := by
  intro attrs
  induction attrs with
  | nil => intro _; rfl
  | cons p rest ih =>
    intro hfresh
    have hp := hfresh p.1 (by simp)
    have hrest : lastWrite declared rest k = none :=
      ih fun g hg => hfresh g (by simp [hg])
    have hk1 : ¬(k = p.1) := fun hh => hp.1 hh.symm
    have hk2 : ¬(k = p.1 ++ "Ts") := fun hh => hp.2 hh.symm
    have hentry : entryWrite declared p k = none := by
      simp [entryWrite, hk1, hk2, oalt]
    show oalt (lastWrite declared rest k) (entryWrite declared p k) = none
    rw [hrest, hentry]
    rfl

theorem lastWrite_not_target {α : Type} (declared : List String) (k : String) :
    ∀ attrs : List (String × GardenaRawDeviceAttributeJson α),
      k ∉ writeTargets declared attrs →
      lastWrite declared attrs k = none := by
  intro attrs
  induction attrs with
  | nil => intro _; rfl
  | cons p rest ih =>
    intro hk
    simp only [writeTargets, List.mem_append, not_or] at hk
    have hrest : lastWrite declared rest k = none := ih hk.2
    have hentry : entryWrite declared p k = none := by
      by_cases h : p.1 ∈ declared
      · have hk1 := hk.1
        rw [if_pos h] at hk1
        cases hts : p.2.ts with
        | some t =>
          rw [hts] at hk1
          have hh1 : ¬(k = p.1) := fun hh => hk1 (by simp [hh])
          have hh2 : ¬(k = p.1 ++ "Ts") := fun hh => hk1 (by simp [hh])
          simp [entryWrite, hh1, hh2, oalt]
        | none =>
          rw [hts] at hk1
          have hh1 : ¬(k = p.1) := fun hh => hk1 (by simp [hh])
          simp [entryWrite, hh1, hts, oalt]
      · simp [entryWrite, h]
    show oalt (lastWrite declared rest k) (entryWrite declared p k) = none
    rw [hrest, hentry]
    rfl

theorem lastWrite_value {α : Type} (declared : List String) :
    ∀ attrs : List (String × GardenaRawDeviceAttributeJson α),
      (attrs.map Prod.fst).Nodup →
      (∀ f ∈ attrs.map Prod.fst, ∀ g ∈ attrs.map Prod.fst, ¬(f ++ "Ts" = g)) →
      ∀ p ∈ attrs, p.1 ∈ declared →
        lastWrite declared attrs p.1 = some p.2.value := by
  intro attrs
  induction attrs with
  | nil => intro _ _ p hp; exact absurd hp (List.not_mem_nil p)
  | cons q rest ih =>
    intro hnd hts p hp hdecl
    rcases List.mem_cons.mp hp with hpq | hpr
    · subst hpq
      have hq1 : p.1 ∉ rest.map Prod.fst := by
        rw [List.map_cons, List.nodup_cons] at hnd
        exact hnd.1
      have hrest : lastWrite declared rest p.1 = none := by
        apply lastWrite_eq_none
        intro g hg
        refine ⟨fun hgk => hq1 (hgk ▸ hg), ?_⟩
        exact hts g (by simp [hg]) p.1 (by simp)
      have hentry : entryWrite declared p p.1 = some p.2.value := by
        have hne := append_Ts_ne_self p.1
        simp [entryWrite, hdecl, hne, oalt]
      show oalt (lastWrite declared rest p.1) (entryWrite declared p p.1) = some p.2.value
      rw [hrest, hentry]
      rfl
    · have hrest := ih
        (by rw [List.map_cons, List.nodup_cons] at hnd; exact hnd.2)
        (fun f hf g hg => hts f (by simp [hf]) g (by simp [hg]))
        p hpr hdecl
      show oalt (lastWrite declared rest p.1) (entryWrite declared q p.1) = some p.2.value
      rw [hrest]
      rfl

theorem lastWrite_timestamp {α : Type} (declared : List String) :
    ∀ attrs : List (String × GardenaRawDeviceAttributeJson α),
      (attrs.map Prod.fst).Nodup →
      (∀ f ∈ attrs.map Prod.fst, ∀ g ∈ attrs.map Prod.fst, ¬(f ++ "Ts" = g)) →
      ∀ p ∈ attrs, p.1 ∈ declared → ∀ t, p.2.ts = some t →
        lastWrite declared attrs (p.1 ++ "Ts") = some t := by
  intro attrs
  induction attrs with
  | nil => intro _ _ p hp; exact absurd hp (List.not_mem_nil p)
  | cons q rest ih =>
    intro hnd hts p hp hdecl t ht
    rcases List.mem_cons.mp hp with hpq | hpr
    · subst hpq
      have hq1 : p.1 ∉ rest.map Prod.fst := by
        rw [List.map_cons, List.nodup_cons] at hnd
        exact hnd.1
      have hrest : lastWrite declared rest (p.1 ++ "Ts") = none := by
        apply lastWrite_eq_none
        intro g hg
        constructor
        · intro hgk
          exact hts p.1 (by simp) g (by simp [hg]) hgk.symm
        · intro hgk
          exact hq1 (append_Ts_cancel hgk ▸ hg)
      have hentry : entryWrite declared p (p.1 ++ "Ts") = some t := by
        simp [entryWrite, hdecl, ht, oalt]
      show oalt (lastWrite declared rest (p.1 ++ "Ts"))
        (entryWrite declared p (p.1 ++ "Ts")) = some t
      rw [hrest, hentry]
      rfl
    · have hrest := ih
        (by rw [List.map_cons, List.nodup_cons] at hnd; exact hnd.2)
        (fun f hf g hg => hts f (by simp [hf]) g (by simp [hg]))
        p hpr hdecl t ht
      show oalt (lastWrite declared rest (p.1 ++ "Ts"))
        (entryWrite declared q (p.1 ++ "Ts")) = some t
      rw [hrest]
      rfl

theorem addProp_mem (l : List String) (k g : String) :
    g ∈ addProp l k ↔ (g ∈ l ∨ g = k) := by
  unfold addProp
  by_cases h : k ∈ l
  · rw [if_pos h]
    constructor
    · exact Or.inl
    · rintro (h1 | h2)
      · exact h1
      · exact h2 ▸ h
  · rw [if_neg h]
    simp [List.mem_append]

theorem addProp_of_mem {l : List String} {k : String} (h : k ∈ l) :
    addProp l k = l := by
  unfold addProp
  rw [if_pos h]

theorem mem_addProp_iff_of_ne {l : List String} {k g : String}
    (hne : ¬(g = k)) : g ∈ addProp l k ↔ g ∈ l := by
  rw [addProp_mem]
  constructor
  · rintro (h1 | h2)
    · exact h1
    · exact absurd h2 hne
  · exact Or.inl

theorem processAttributesDynamic_idSecondary {α : Type}
    (attrs : List (String × GardenaRawDeviceAttributeJson α)) :
    ∀ d : GardenaDevice α,
      (processAttributesDynamic d attrs).1.id = d.id ∧
      (processAttributesDynamic d attrs).1.secondaryIds = d.secondaryIds := by
  induction attrs with
  | nil => intro d; exact ⟨rfl, rfl⟩
  | cons p rest ih =>
    intro d
    by_cases h : p.1 ∈ d.declared
    · cases hts0 : p.2.ts <;>
        simp only [processAttributesDynamic, h, if_pos, hts0] <;> exact ih _
    · simp only [processAttributesDynamic, h, if_neg, not_false_iff, ite_false]
      exact ih d

theorem processAttributesDynamic_declared_superset {α : Type}
    (attrs : List (String × GardenaRawDeviceAttributeJson α)) :
    ∀ (d : GardenaDevice α) (g : String), g ∈ d.declared →
      g ∈ (processAttributesDynamic d attrs).1.declared := by
  induction attrs with
  | nil => intro d g hg; exact hg
  | cons p rest ih =>
    intro d g hg
    by_cases h : p.1 ∈ d.declared
    · cases hts0 : p.2.ts with
      | some t =>
        simp only [processAttributesDynamic, h, if_pos, hts0]
        exact ih _ g ((addProp_mem d.declared (p.1 ++ "Ts") g).mpr (Or.inl hg))
      | none =>
        simp only [processAttributesDynamic, h, if_pos, hts0]
        exact ih _ g hg
    · simp only [processAttributesDynamic, h, if_neg, not_false_iff, ite_false]
      exact ih d g hg

theorem processAttributesDynamic_declared_sub {α : Type}
    (attrs : List (String × GardenaRawDeviceAttributeJson α)) :
    ∀ (d : GardenaDevice α) (g : String),
      g ∈ (processAttributesDynamic d attrs).1.declared →
      g ∈ d.declared ∨ ∃ p, p ∈ attrs ∧ g = p.1 ++ "Ts" := by
  induction attrs with
  | nil => intro d g hg; exact Or.inl hg
  | cons p rest ih =>
    intro d g hg
    by_cases h : p.1 ∈ d.declared
    · cases hts0 : p.2.ts with
      | some t =>
        simp only [processAttributesDynamic, h, if_pos, hts0] at hg
        rcases ih _ g hg with h1 | ⟨q, hq, he⟩
        · rcases (addProp_mem d.declared (p.1 ++ "Ts") g).mp h1 with h2 | h3
          · exact Or.inl h2
          · exact Or.inr ⟨p, by simp, h3⟩
        · exact Or.inr ⟨q, by simp [hq], he⟩
      | none =>
        simp only [processAttributesDynamic, h, if_pos, hts0] at hg
        rcases ih _ g hg with h1 | ⟨q, hq, he⟩
        · exact Or.inl h1
        · exact Or.inr ⟨q, by simp [hq], he⟩
    · simp only [processAttributesDynamic, h, if_neg, not_false_iff,
        ite_false] at hg
      rcases ih d g hg with h1 | ⟨q, hq, he⟩
      · exact Or.inl h1
      · exact Or.inr ⟨q, by simp [hq], he⟩

theorem processAttributesDynamic_ts_created {α : Type}
    (attrs : List (String × GardenaRawDeviceAttributeJson α)) :
    ∀ (d : GardenaDevice α) (p : String × GardenaRawDeviceAttributeJson α),
      p ∈ attrs → p.1 ∈ d.declared → p.2.ts.isSome = true →
      (p.1 ++ "Ts") ∈ (processAttributesDynamic d attrs).1.declared := by
  induction attrs with
  | nil => intro d p hp; exact absurd hp (List.not_mem_nil p)
  | cons q rest ih =>
    intro d p hp hd hsome
    rcases List.mem_cons.mp hp with hpq | hpr
    · subst hpq
      cases hts0 : p.2.ts with
      | some t =>
        simp only [processAttributesDynamic, hd, if_pos, hts0]
        exact processAttributesDynamic_declared_superset rest _ _
          ((addProp_mem d.declared (p.1 ++ "Ts") (p.1 ++ "Ts")).mpr (Or.inr rfl))
      | none =>
        rw [hts0] at hsome
        simp at hsome
    · by_cases h : q.1 ∈ d.declared
      · cases hts0 : q.2.ts with
        | some t =>
          simp only [processAttributesDynamic, h, if_pos, hts0]
          exact ih _ p hpr
            ((addProp_mem d.declared (q.1 ++ "Ts") p.1).mpr (Or.inl hd)) hsome
        | none =>
          simp only [processAttributesDynamic, h, if_pos, hts0]
          exact ih _ p hpr hd hsome
      · simp only [processAttributesDynamic, h, if_neg, not_false_iff, ite_false]
        exact ih d p hpr hd hsome

theorem processAttributesDynamic_declared_frozen {α : Type}
    (attrs : List (String × GardenaRawDeviceAttributeJson α)) :
    ∀ d : GardenaDevice α,
      (∀ p ∈ attrs, p.1 ∈ d.declared → p.2.ts.isSome = true →
        (p.1 ++ "Ts") ∈ d.declared) →
      (processAttributesDynamic d attrs).1.declared = d.declared := by
  induction attrs with
  | nil => intro d _; rfl
  | cons p rest ih =>
    intro d hpre
    by_cases h : p.1 ∈ d.declared
    · cases hts0 : p.2.ts with
      | some t =>
        have hkey : (p.1 ++ "Ts") ∈ d.declared :=
          hpre p (by simp) h (by rw [hts0]; rfl)
        have haddp : addProp d.declared (p.1 ++ "Ts") = d.declared :=
          addProp_of_mem hkey
        have hyp2 : ∀ p2 ∈ rest, p2.1 ∈ addProp d.declared (p.1 ++ "Ts") →
            p2.2.ts.isSome = true →
            (p2.1 ++ "Ts") ∈ addProp d.declared (p.1 ++ "Ts") := by
          rw [haddp]
          intro p2 hp2 hd2 hs2
          exact hpre p2 (by simp [hp2]) hd2 hs2
        simp only [processAttributesDynamic, h, if_pos, hts0]
        exact (ih _ hyp2).trans haddp
      | none =>
        simp only [processAttributesDynamic, h, if_pos, hts0]
        exact ih _ (fun p2 hp2 hd2 hs2 => hpre p2 (by simp [hp2]) hd2 hs2)
    · simp only [processAttributesDynamic, h, if_neg, not_false_iff, ite_false]
      exact ih d (fun p2 hp2 hd2 hs2 => hpre p2 (by simp [hp2]) hd2 hs2)

theorem processAttributesDynamic_snd {α : Type}
    (attrs : List (String × GardenaRawDeviceAttributeJson α))
    (base : List String) :
    (∀ f ∈ attrs.map Prod.fst, ∀ g ∈ attrs.map Prod.fst, ¬(f ++ "Ts" = g)) →
    ∀ d : GardenaDevice α,
      (∀ g ∈ attrs.map Prod.fst, (g ∈ d.declared ↔ g ∈ base)) →
      (processAttributesDynamic d attrs).2 =
        (attrs.filter (fun p => decide (p.1 ∈ base))).map Prod.fst := by
  induction attrs with
  | nil => intro _ d _; rfl
  | cons p rest ih =>
    intro hts d hdecl
    have hg : p.1 ∈ d.declared ↔ p.1 ∈ base := hdecl p.1 (by simp)
    have htsr : ∀ f ∈ rest.map Prod.fst, ∀ g ∈ rest.map Prod.fst,
        ¬(f ++ "Ts" = g) :=
      fun f hf g hg2 => hts f (by simp [hf]) g (by simp [hg2])
    by_cases hb : p.1 ∈ base
    · have hd : p.1 ∈ d.declared := hg.mpr hb
      cases hts0 : p.2.ts with
      | some t =>
        simp only [processAttributesDynamic, hd, if_pos, hts0]
        rw [List.filter_cons_of_pos (by simpa using hb), List.map_cons]
        refine congrArg (p.1 :: ·) (ih htsr _ ?_)
        intro g hgm
        have hne : ¬(g = p.1 ++ "Ts") := fun he =>
          hts p.1 (by simp) g (by simp [hgm]) he.symm
        exact (mem_addProp_iff_of_ne hne).trans (hdecl g (by simp [hgm]))
      | none =>
        simp only [processAttributesDynamic, hd, if_pos, hts0]
        rw [List.filter_cons_of_pos (by simpa using hb), List.map_cons]
        exact congrArg (p.1 :: ·) (ih htsr _ (fun g hgm => hdecl g (by simp [hgm])))
    · have hd : p.1 ∉ d.declared := fun hh => hb (hg.mp hh)
      simp only [processAttributesDynamic, hd, if_neg, not_false_iff, ite_false]
      rw [List.filter_cons_of_neg (by simpa using hb)]
      exact ih htsr d (fun g hgm => hdecl g (by simp [hgm]))

theorem processAttributesDynamic_fields {α : Type}
    (attrs : List (String × GardenaRawDeviceAttributeJson α))
    (base : List String) :
    (∀ f ∈ attrs.map Prod.fst, ∀ g ∈ attrs.map Prod.fst, ¬(f ++ "Ts" = g)) →
    ∀ d : GardenaDevice α,
      (∀ g ∈ attrs.map Prod.fst, (g ∈ d.declared ↔ g ∈ base)) →
      ∀ k : String,
        (processAttributesDynamic d attrs).1.fields k =
          oalt (lastWrite base attrs k) (d.fields k) := by
  induction attrs with
  | nil => intro _ d _ k; rfl
  | cons p rest ih =>
    intro hts d hdecl k
    have hg : p.1 ∈ d.declared ↔ p.1 ∈ base := hdecl p.1 (by simp)
    have htsr : ∀ f ∈ rest.map Prod.fst, ∀ g ∈ rest.map Prod.fst,
        ¬(f ++ "Ts" = g) :=
      fun f hf g hg2 => hts f (by simp [hf]) g (by simp [hg2])
    by_cases hb : p.1 ∈ base
    · have hd : p.1 ∈ d.declared := hg.mpr hb
      cases hts0 : p.2.ts with
      | some t =>
        have hdecl2 : ∀ g ∈ rest.map Prod.fst,
            (g ∈ addProp d.declared (p.1 ++ "Ts") ↔ g ∈ base) := by
          intro g hgm
          have hne : ¬(g = p.1 ++ "Ts") := fun he =>
            hts p.1 (by simp) g (by simp [hgm]) he.symm
          exact (mem_addProp_iff_of_ne hne).trans (hdecl g (by simp [hgm]))
        simp only [processAttributesDynamic, hd, if_pos, hts0]
        rw [ih htsr _ hdecl2 k]
        dsimp only
        have hE : setField (setField d.fields p.1 p.2.value) (p.1 ++ "Ts") t k =
            oalt (entryWrite base p k) (d.fields k) := by
          have hne := append_Ts_ne_self p.1
          by_cases h1 : k = p.1 ++ "Ts"
          · simp [setField, entryWrite, hb, hts0, h1, oalt]
          · by_cases h2 : k = p.1
            · simp [setField, entryWrite, hb, hts0, h1, h2, hne, oalt]
            · simp [setField, entryWrite, hb, hts0, h1, h2, oalt]
        rw [hE, oalt_assoc]
        rfl
      | none =>
        simp only [processAttributesDynamic, hd, if_pos, hts0]
        rw [ih htsr { d with fields := setField d.fields p.1 p.2.value }
          (fun g hgm => hdecl g (by simp [hgm])) k]
        dsimp only
        have hE : setField d.fields p.1 p.2.value k =
            oalt (entryWrite base p k) (d.fields k) := by
          by_cases h2 : k = p.1
          · simp [setField, entryWrite, hb, hts0, h2, oalt]
          · simp [setField, entryWrite, hb, hts0, h2, oalt]
        rw [hE, oalt_assoc]
        rfl
    · have hd : p.1 ∉ d.declared := fun hh => hb (hg.mp hh)
      simp only [processAttributesDynamic, hd, if_neg, not_false_iff, ite_false]
      rw [ih htsr d (fun g hgm => hdecl g (by simp [hgm])) k]
      have hE : entryWrite base p k = none := by
        simp [entryWrite, hb]
      show _ = oalt (oalt (lastWrite base rest k) (entryWrite base p k)) _
      rw [hE, oalt_none_right]

/-! Claim theorems. -/

/-- C2: for every device entity and every attribute delta (whose field names
are distinct and do not collide with another field's paired `Ts` key, as for
any delta decoded from a JSON object), `processAttributes` overwrites exactly
the fields that are both named in the delta and declared by the entity —
overwriting the paired timestamp key only when the delta supplies a
timestamp — leaves every other property and every other component of the
entity unchanged, and returns precisely the names of the updated fields, in
delta order, with no duplicates. -/
theorem processAttributes_exact {α : Type} (d : GardenaDevice α)
    (attrs : List (String × GardenaRawDeviceAttributeJson α))
    (hnd : (attrs.map Prod.fst).Nodup)
    (hts : ∀ f ∈ attrs.map Prod.fst, ∀ g ∈ attrs.map Prod.fst, ¬(f ++ "Ts" = g)) :
    (processAttributes d attrs).2 =
        (attrs.filter (fun p => decide (p.1 ∈ d.declared))).map Prod.fst ∧
    (processAttributes d attrs).2.Nodup ∧
    (processAttributes d attrs).1.id = d.id ∧
    (processAttributes d attrs).1.secondaryIds = d.secondaryIds ∧
    (processAttributes d attrs).1.declared = d.declared ∧
    (∀ p ∈ attrs, p.1 ∈ d.declared →
      (processAttributes d attrs).1.fields p.1 = some p.2.value ∧
      ∀ t, p.2.ts = some t →
        (processAttributes d attrs).1.fields (p.1 ++ "Ts") = some t) ∧
    (∀ k, k ∉ writeTargets d.declared attrs →
      (processAttributes d attrs).1.fields k = d.fields k) := by
  have hinv := processAttributes_invariants attrs d
  refine ⟨processAttributes_snd attrs d, ?_, hinv.1, hinv.2.1, hinv.2.2, ?_, ?_⟩
  · rw [processAttributes_snd attrs d]
    exact hnd.sublist (List.Sublist.map Prod.fst (List.filter_sublist attrs))
  · intro p hp hdecl
    constructor
    · rw [processAttributes_fields attrs d p.1,
        lastWrite_value d.declared attrs hnd hts p hp hdecl]
      rfl
    · intro t ht
      rw [processAttributes_fields attrs d (p.1 ++ "Ts"),
        lastWrite_timestamp d.declared attrs hnd hts p hp hdecl t ht]
      rfl
  · intro k hk
    rw [processAttributes_fields attrs d k, lastWrite_not_target d.declared k attrs hk]
    rfl

/-- Witness for C2 at a concrete entity and delta: the returned update list
is exactly the declared delta field, obtained by applying
`processAttributes_exact` with its hypotheses discharged by `decide`. -/
theorem processAttributes_exact_witness :
    (processAttributes devMower1 wDelta).2 = ["batteryLevel"] :=
  ((processAttributes_exact devMower1 wDelta (by decide) (by decide)).1).trans
    (by decide)

/-- C7 counterexample: on a fresh mower, the delta
`{operatingHoursTs: {value 7}, operatingHours: {value 5, timestamp t1}}`
returns `["operatingHours"]` on the first application — `operatingHoursTs`
is not yet a property — while the first application's timestamp write
creates the `operatingHoursTs` property, so the second application's
`field in this` test sees it and returns
`["operatingHoursTs", "operatingHours"]`: the second changed-field list
differs from the first. -/
theorem processAttributes_idem_counterexample :
    (processAttributesDynamic devMower1 wDeltaTs).2 = ["operatingHours"] ∧
    (processAttributesDynamic
        (processAttributesDynamic devMower1 wDeltaTs).1 wDeltaTs).2 =
      ["operatingHoursTs", "operatingHours"] ∧
    ¬((processAttributesDynamic
        (processAttributesDynamic devMower1 wDeltaTs).1 wDeltaTs).2 =
      (processAttributesDynamic devMower1 wDeltaTs).2) :=
  ⟨rfl, rfl, by decide⟩

/-- C7 (amended): for every device entity and every attribute delta in which
no field name is another delta field's paired `Ts` key (true of every delta
decoded from a real attribute payload), applying the merge with the same
delta twice yields the same final entity state as applying it once, and the
second application returns the same changed-field list as the first — the
merge is an unconditional overwrite, not a diff against the previous value.
Stated over `processAttributesDynamic`, the embedding that also models the
properties the timestamp writes create at runtime; without the restriction,
such a created property (e.g. `operatingHoursTs`) can enlarge the second
application's changed-field list. -/
theorem processAttributesDynamic_idempotent {α : Type} (d : GardenaDevice α)
    (attrs : List (String × GardenaRawDeviceAttributeJson α))
    (hts : ∀ f ∈ attrs.map Prod.fst, ∀ g ∈ attrs.map Prod.fst, ¬(f ++ "Ts" = g)) :
    processAttributesDynamic (processAttributesDynamic d attrs).1 attrs =
      processAttributesDynamic d attrs := by
  have hdecl0 : ∀ g ∈ attrs.map Prod.fst, (g ∈ d.declared ↔ g ∈ d.declared) :=
    fun g _ => Iff.rfl
  have hdecl1 : ∀ g ∈ attrs.map Prod.fst,
      (g ∈ (processAttributesDynamic d attrs).1.declared ↔ g ∈ d.declared) := by
    intro g hgm
    constructor
    · intro hmem
      rcases processAttributesDynamic_declared_sub attrs d g hmem with h1 | ⟨q, hq, he⟩
      · exact h1
      · exact absurd he.symm
          (hts q.1 (List.mem_map_of_mem Prod.fst hq) g hgm)
    · intro hmem
      exact processAttributesDynamic_declared_superset attrs d g hmem
  have h2 : (processAttributesDynamic (processAttributesDynamic d attrs).1 attrs).2 =
      (processAttributesDynamic d attrs).2 := by
    rw [processAttributesDynamic_snd attrs d.declared hts
        ((processAttributesDynamic d attrs).1) hdecl1,
      processAttributesDynamic_snd attrs d.declared hts d hdecl0]
  have h1 : (processAttributesDynamic (processAttributesDynamic d attrs).1 attrs).1 =
      (processAttributesDynamic d attrs).1 := by
    apply deviceEq
    · exact (processAttributesDynamic_idSecondary attrs _).1
    · exact (processAttributesDynamic_idSecondary attrs _).2
    · apply processAttributesDynamic_declared_frozen
      intro p hp hd hsome
      have hdd : p.1 ∈ d.declared :=
        (hdecl1 p.1 (List.mem_map_of_mem Prod.fst hp)).mp hd
      exact processAttributesDynamic_ts_created attrs d p hp hdd hsome
    · intro k
      calc (processAttributesDynamic (processAttributesDynamic d attrs).1 attrs).1.fields k
          = oalt (lastWrite d.declared attrs k)
              ((processAttributesDynamic d attrs).1.fields k) :=
            processAttributesDynamic_fields attrs d.declared hts
              ((processAttributesDynamic d attrs).1) hdecl1 k
        _ = oalt (lastWrite d.declared attrs k)
              (oalt (lastWrite d.declared attrs k) (d.fields k)) := by
            rw [processAttributesDynamic_fields attrs d.declared hts d hdecl0 k]
        _ = oalt (lastWrite d.declared attrs k) (d.fields k) := oalt_absorb _ _
        _ = (processAttributesDynamic d attrs).1.fields k :=
            (processAttributesDynamic_fields attrs d.declared hts d hdecl0 k).symm
  exact Prod.ext_iff.mpr ⟨h1, h2⟩

/-- Witness for the amended C7 theorem at a concrete entity and delta,
applying `processAttributesDynamic_idempotent` with its hypothesis
discharged by `decide`. -/
theorem processAttributesDynamic_idempotent_witness :
    processAttributesDynamic (processAttributesDynamic devMower1 wDelta).1 wDelta =
      processAttributesDynamic devMower1 wDelta :=
  processAttributesDynamic_idempotent devMower1 wDelta (by decide)

/-- C1 counterexample: a device whose primary id is the empty string and a
message whose device-relationship id is the empty string (and whose own id is
absent).  The relationship id equals the entity's primary id, so the claim's
second rule matches the entity, but the handler's JavaScript-truthiness guard
on `json.relationships.device.data.id` treats the empty string as absent: no
entity matches and the delta is dropped. -/
theorem wsMatch_empty_rel_counterexample :
    matchedDevice [devBlank] msgEmptyRel = none ∧
    (wsMatchClaim [devBlank] msgEmptyRel).isSome = true ∧
    (wsMatchClaim [devBlank] msgEmptyRel).map GardenaDevice.id = some "" ∧
    devBlank.id = "" ∧ msgEmptyRel.relDeviceId = some "" ∧
    onWSMessage stBlank (some msgEmptyRel) = (none, stBlank, []) :=
  ⟨rfl, rfl, rfl, rfl, rfl, rfl⟩

/-- C1 (amended): the message-to-entity matching is attempted first by
primary-or-secondary id equality against the message's own id, then (if that
found nothing, and the relationship id is a non-empty string — an
empty-string id is treated as absent) by the message's device-relationship id
against each entity's primary id; if neither rule matches any entity, the
delta is dropped: the handler raises nothing, mutates no entity and emits no
event. -/
theorem wsMatch_amended {α : Type} (st : GardenaLocationState α)
    (msg : WSMessage α) :
    matchedDevice st.devices msg = wsMatchClaimAmended st.devices msg ∧
    (matchedDevice st.devices msg = none →
      onWSMessage st (some msg) = (none, st, [])) := by
  constructor
  · rfl
  · intro h
    cases hf : st.devices.find? (matchesByIds msg) with
    | some dev =>
      exfalso
      simp [matchedDevice, hf] at h
    | none =>
      cases hrel : msg.relDeviceId with
      | none => simp [onWSMessage, hf, hrel]
      | some r =>
        by_cases hr : r = ""
        · subst hr
          simp [onWSMessage, hf, hrel]
        · cases hf2 : st.devices.find? (fun x => x.id == r) with
          | some dev =>
            exfalso
            simp [matchedDevice, hf, hrel, hr, hf2] at h
          | none =>
            simp [onWSMessage, hf, hrel, hr, hf2]

/-- Witness for the amended C1 theorem: on a location with no devices the
handler drops a delta unchanged, by applying `wsMatch_amended` with its
hypothesis discharged by `rfl`. -/
theorem wsMatch_amended_witness :
    onWSMessage locEmpty (some msgBogus) = (none, locEmpty, []) :=
  (wsMatch_amended locEmpty msgBogus).2 rfl

/-- C3 (code-bug evaluation): on a snapshot linking one mower and one device
whose characteristics hold no supported type, `updateDevicesList` raises a
wrapped `TypeError` (from reading `.type` off the `undefined` that
`rawCharacteristics.find` returned) and builds nothing, instead of skipping
the unsupported device: the per-device build errors on `sensor1` although it
succeeds on `mower1` alone. -/
theorem updateDevicesList_unsupported_throws :
    (updateDevicesList locEmpty (.ok snapMixed)).1 =
        some (.apiErrorCaused .typeError) ∧
    (updateDevicesList locEmpty (.ok snapMixed)).2 = locEmpty ∧
    buildDevice [mowerChar, sensorChar] "sensor1" = .error .typeError ∧
    (buildDevice [mowerChar, sensorChar] "mower1").toOption.isSome = true :=
  ⟨rfl, rfl, rfl, rfl⟩

/-- C4: for every session state with stay-alive true, the close and error
handlers invoke `resetWS`, which issues the fixed 10-second cool-down wait
and then exactly one snapshot refresh followed by exactly one connection
attempt; when stay-alive is cleared during the wait, nothing follows the
wait — no refresh and no reconnect. -/
theorem resetWS_reconnect_once (ws devs : Bool) :
    onWSCloseFn ⟨ws, devs, true⟩ false = resetWSFn ⟨ws, devs, true⟩ false ∧
    onWSErrorFn ⟨ws, devs, true⟩ false = resetWSFn ⟨ws, devs, true⟩ false ∧
    (resetWSFn ⟨ws, devs, true⟩ false).2.count .refreshDevices = 1 ∧
    (resetWSFn ⟨ws, devs, true⟩ false).2.count .openTransport = 1 ∧
    (∃ pre, (resetWSFn ⟨ws, devs, true⟩ false).2 =
        pre ++ [.wait 10000, .refreshDevices, .negotiateWebsocketUrl,
          .openTransport] ∧
      pre.count .refreshDevices = 0 ∧ pre.count .openTransport = 0) ∧
    (resetWSFn ⟨ws, devs, true⟩ true).2.count .refreshDevices = 0 ∧
    (resetWSFn ⟨ws, devs, true⟩ true).2.count .openTransport = 0 ∧
    (resetWSFn ⟨ws, devs, true⟩ true).2.getLast? = some (.wait 10000) := by
  cases ws with
  | false =>
    cases devs <;>
      exact ⟨rfl, rfl, by decide, by decide,
        ⟨[.emitStopWSUpdates], by decide, by decide, by decide⟩,
        by decide, by decide, by decide⟩
  | true =>
    cases devs <;>
      exact ⟨rfl, rfl, by decide, by decide,
        ⟨[.terminateWS, .clearTimers, .emitStopWSUpdates], by decide, by decide,
          by decide⟩,
        by decide, by decide, by decide⟩

/-- C6 (code-bug evaluation): on a mower whose run state is `WARNING`, the
`error` getter re-enters itself and never returns at any recursion depth
(the embedded evaluation yields `none` for every fuel), while on a mower in
state `OK` it terminates immediately with `null`. -/
theorem mowerErrorGetter_diverges :
    (∀ fuel, mowerErrorGetter mowerWarn fuel = none) ∧
    (∀ fuel, mowerErrorGetter mowerOk (fuel + 1) = some .null) := by
  constructor
  · intro fuel
    induction fuel with
    | zero => rfl
    | succ n ih =>
      have hcond : (jsEqStr (mowerWarn.fields "state") "ERROR" ||
          jsEqStr (mowerWarn.fields "state") "WARNING") = true := rfl
      simp [mowerErrorGetter, hcond, ih]
  · intro fuel
    rfl

/-- C8 counterexample: a message matching entity `dev1` whose only attribute
field is one the entity does not declare.  The merge reports an empty
changed-field set, yet the handler still dispatches a `wsUpdate` notification
(carrying the empty list). -/
theorem wsUpdate_empty_dispatch_counterexample :
    (onWSMessage stMower1 (some msgBogus)).2.2 = [.wsUpdate "dev1" []] ∧
    (processAttributes devMower1
      [("bogusField", ⟨GVal.str "x", none⟩)]).2 = [] :=
  ⟨rfl, rfl⟩

/-- C8 (amended): the `wsUpdate` notification is dispatched if and only if
the message matches an entity and carries an attributes object; it carries
the merge's changed-field list, which may be empty — in particular, when
every field in the delta is unrecognized, a `wsUpdate` with an empty list is
still dispatched. -/
theorem wsUpdate_dispatch_iff {α : Type} (st : GardenaLocationState α)
    (msg : WSMessage α) :
    ((onWSMessage st (some msg)).2.2 ≠ [] ↔
      (matchedDevice st.devices msg).isSome = true ∧
      msg.attributes.isSome = true) ∧
    (∀ dev, matchedDevice st.devices msg = some dev →
      ∀ entries, msg.attributes = some entries →
      (onWSMessage st (some msg)).2.2 =
        [.wsUpdate dev.id
          (processAttributes dev
            (entries.foldl
              (fun acc e => upsert acc e.1 ⟨e.2.value, e.2.timestamp⟩)
              [])).2]) := by
  cases hf : st.devices.find? (matchesByIds msg) with
  | some dev0 =>
    cases hat : msg.attributes with
    | none =>
      constructor
      · simp [onWSMessage, hf, dispatchDelta, matchedDevice, hat]
      · intro dev hdev entries hat2
        exact absurd hat2 (by simp)
    | some entries0 =>
      constructor
      · simp [onWSMessage, hf, dispatchDelta, matchedDevice, hat]
      · intro dev hdev entries hat2
        injection hat2 with he
        have hd : dev0 = dev := by
          simp [matchedDevice, hf] at hdev
          exact hdev
        subst he
        subst hd
        simp [onWSMessage, hf, dispatchDelta, hat]
  | none =>
    cases hrel : msg.relDeviceId with
    | none =>
      constructor
      · simp [onWSMessage, hf, hrel, matchedDevice]
      · intro dev hdev
        simp [matchedDevice, hf, hrel] at hdev
    | some r =>
      by_cases hr : r = ""
      · subst hr
        constructor
        · simp [onWSMessage, hf, hrel, matchedDevice]
        · intro dev hdev
          simp [matchedDevice, hf, hrel] at hdev
      · cases hf2 : st.devices.find? (fun x => x.id == r) with
        | some dev0 =>
          cases hat : msg.attributes with
          | none =>
            constructor
            · simp [onWSMessage, hf, hrel, hr, hf2, dispatchDelta,
                matchedDevice, hat]
            · intro dev hdev entries hat2
              exact absurd hat2 (by simp)
          | some entries0 =>
            constructor
            · simp [onWSMessage, hf, hrel, hr, hf2, dispatchDelta,
                matchedDevice, hat]
            · intro dev hdev entries hat2
              injection hat2 with he
              have hd : dev0 = dev := by
                simp [matchedDevice, hf, hrel, hr, hf2] at hdev
                exact hdev
              subst he
              subst hd
              simp [onWSMessage, hf, hrel, hr, hf2, dispatchDelta, hat]
        | none =>
          constructor
          · simp [onWSMessage, hf, hrel, hr, hf2, matchedDevice]
          · intro dev hdev
            simp [matchedDevice, hf, hrel, hr, hf2] at hdev

/-- Witness for the amended C8 theorem at a concrete matched message with an
unrecognized field, applying `wsUpdate_dispatch_iff` with its hypotheses
discharged by `rfl`. -/
theorem wsUpdate_dispatch_iff_witness :
    (onWSMessage stMower1 (some msgBogus)).2.2 =
      [.wsUpdate devMower1.id
        (processAttributes devMower1
          (([("bogusField", (⟨GVal.str "x", none⟩ : RawAttrValueJson GVal))]).foldl
            (fun acc e => upsert acc e.1 ⟨e.2.value, e.2.timestamp⟩) [])).2] :=
  (wsUpdate_dispatch_iff stMower1 msgBogus).2 devMower1 rfl
    [("bogusField", ⟨GVal.str "x", none⟩)] rfl

/-- C9: on an inbound payload that is not parseable as JSON, the message
handler raises a `GardenaApiError` and nothing else happens: the transport
handle, both heartbeat timers, the stay-alive flag and every device entity
are left exactly as they were, and no event — in particular no teardown or
reconnection — is produced. -/
theorem onWSMessage_malformed {α : Type} (st : GardenaLocationState α) :
    (onWSMessage st none).1 = some .apiError ∧
    (onWSMessage st none).2.1 = st ∧
    (onWSMessage st none).2.1.ws = st.ws ∧
    (onWSMessage st none).2.1.wsPingInterval = st.wsPingInterval ∧
    (onWSMessage st none).2.1.wsPongTimeout = st.wsPongTimeout ∧
    (onWSMessage st none).2.1.keepWsAlive = st.keepWsAlive ∧
    (onWSMessage st none).2.1.devices = st.devices ∧
    (onWSMessage st none).2.2 = [] :=
  ⟨rfl, rfl, rfl, rfl, rfl, rfl, rfl, rfl⟩

/-- C10: whenever `updateDevicesList` fails — the snapshot request erred, the
payload lacked the expected relationship/inclusion shape, or the device build
raised — the location is returned exactly as it was: the existing device
list (and with it every previously built entity) survives a failed
refresh. -/
theorem updateDevicesList_atomic {α : Type} (loc : GardenaLocationState α)
    (res : Except GError (Snapshot α))
    (h : (updateDevicesList loc res).1.isSome = true) :
    (updateDevicesList loc res).2 = loc := by
  cases res with
  | error e => rfl
  | ok snap =>
    cases hrefs : snap.deviceRefIds with
    | none => simp [updateDevicesList, hrefs]
    | some refs =>
      cases hinc : snap.included with
      | none => simp [updateDevicesList, hrefs, hinc]
      | some included =>
        cases hbd : buildDevices included refs with
        | error e => simp [updateDevicesList, hrefs, hinc, hbd]
        | ok devs =>
          exfalso
          have hnone : (updateDevicesList loc (.ok snap)).1 = none := by
            simp [updateDevicesList, hrefs, hinc, hbd]
          rw [hnone] at h
          simp at h

/-- Witness for C10 at a concrete failing refresh, applying
`updateDevicesList_atomic` with its hypothesis discharged by `rfl`. -/
theorem updateDevicesList_atomic_witness :
    (updateDevicesList locEmpty (Except.error GError.apiError)).2 = locEmpty :=
  updateDevicesList_atomic locEmpty (Except.error GError.apiError) rfl

end Gardena
